import Mathlib

/-!
A formal model of the Watchdog debugging allocator (src/src/Watchdog.c).

Watchdog wraps the raw allocation primitives and keeps, in process-global
state, a registry (the chain `__info_list`) of one `info_t` record per
allocation ever made, a per-allocation trace log of `trace_t` records, and
five `size_t` counters.  The model below embeds that state as a Lean
structure and each internal function as a pure state transformer.

Modelling conventions:
- `size_t` arithmetic wraps modulo `W = 2^64`; every counter update in
  the C code (`+=` on a `size_t` global) is modelled with an explicit
  `% W`.
- The raw allocator (`malloc` / `calloc` / `realloc`) is modelled by
  oracle parameters: a `Bool` saying whether the raw call succeeds and a
  `Nat` giving the numeric address of the new chunk payload.
- A user-visible pointer returned by the instrumented allocator is
  modelled by the index of its `info_t` record in the registry: in the C
  code the hidden chunk header stores exactly this back-reference
  (`chunk->info`), and records are never removed from the registry before
  process termination, so the index is a stable identity for the
  allocation, unchanged across `realloc` even when the numeric address
  changes.
- Output (`fprintf`) and the lazy `__watchdog_initialize` stream setup
  are I/O and are not part of the state model; the `atexit` registrations
  performed by `__watchdog_initialize` are modelled separately as a list
  of hooks.
- `chain_push` appends at the back of a chain and `chain_back` reads the
  last element, so chains are modelled as Lean lists with append at the
  back.  `chain_back` on an empty chain returns no element and the C code
  then fails an `assert`; that branch is unreachable for the pointers the
  claims quantify over (every `info_t` is created with a one-element
  trace list and traces are only ever appended), and is modelled by the
  `default` fallback of `List.getLastD`.
-/

namespace Watchdog

/-- Modulus of size_t arithmetic: 2 ^ 64. -/
def W : Nat := 18446744073709551616

/-- The call_t enumeration of Watchdog.c. -/
inductive call_t where
  | CALL_MALLOC
  | CALL_CALLOC
  | CALL_REALLOC
  | CALL_FREE
  | CALL_EXIT
  | CALL_ABORT
deriving DecidableEq, Repr, Inhabited

/-- The trace_t record of Watchdog.c: one operation performed on one
allocation (call kind, call site, requested size). -/
structure trace_t where
  file : String
  line : Nat
  size : Nat
  func : call_t
deriving DecidableEq, Repr, Inhabited

/-- The info_t record of Watchdog.c: per-allocation metadata (owned trace
log, current payload address, allocated flag). -/
structure info_t where
  trace_list : List trace_t
  address : Nat
  allocated : Bool
deriving DecidableEq, Repr, Inhabited

/-- The process-global state of Watchdog.c: the registry `__info_list`
and the five size_t counters. -/
structure State where
  info_list : List info_t
  allocations_counter : Nat
  frees_counter : Nat
  bytes_allocated : Nat
  bytes_freed : Nat
  bytes_collected : Nat
deriving DecidableEq, Repr

/-- The state right after `__watchdog_initialize`: an empty registry
(`chain_new`) and all counters at their zero initial values. -/
def initial : State :=
  { info_list := []
    allocations_counter := 0
    frees_counter := 0
    bytes_allocated := 0
    bytes_freed := 0
    bytes_collected := 0 }

/-- Size recorded in the most recent trace entry of an info record, as
read by `chain_back(info->trace_list, ...)` in the C code. -/
def lastTraceSize (info : info_t) : Nat :=
  (info.trace_list.getLastD default).size

/-- Bytes this info record currently accounts for: the size of its last
trace if it is still marked allocated, 0 otherwise. -/
def liveSize (info : info_t) : Nat :=
  if info.allocated then lastTraceSize info else 0

/-- Sum of the sizes of the currently allocated (not yet freed) tracked
chunks of the registry. -/
def liveBytes (s : State) : Nat :=
  (s.info_list.map liveSize).sum

/-- Number of registry records still marked allocated. -/
def liveCount (s : State) : Nat :=
  (s.info_list.map (fun info => if info.allocated then 1 else 0)).sum

/-- Model of `__watchdog_allocate` (Watchdog.c lines 319-341).  `raw_ok`
tells whether the raw `malloc` / `calloc` call succeeds and `addr` is the
numeric address of the new payload `chunk + 1`.  On raw failure it
returns NULL (`none`) with the state untouched; on success it creates an
`info_t` holding a one-element trace list, pushes it onto the registry,
and bumps `__bytes_allocated` and `__allocations_counter`.  The returned
user pointer is the registry index of the new record. -/
def __watchdog_allocate (s : State) (size : Nat) (clear : Bool)
    (file : String) (line : Nat) (raw_ok : Bool) (addr : Nat) :
    Option Nat × State :=
  if raw_ok = false then
    (none, s)
  else
    let trace : trace_t :=
      { file := file, line := line, size := size
        func := if clear then call_t.CALL_CALLOC else call_t.CALL_MALLOC }
    let info : info_t :=
      { trace_list := [trace], address := addr, allocated := true }
    (some s.info_list.length,
      { s with
          info_list := s.info_list ++ [info]
          bytes_allocated := (s.bytes_allocated + size) % W
          allocations_counter := (s.allocations_counter + 1) % W })

/-- Model of `__watchdog_reallocate` (Watchdog.c lines 343-366).  `ptr`
is the registry index recovered from the chunk header (`chunk->info`).
The previous size is read from the last trace before the raw `realloc`;
on raw failure it returns NULL with the state untouched.  On success the
same info record gets the new address, its allocated flag set, a new
REALLOC trace appended, and `__bytes_allocated` / `__bytes_freed` are
bumped by the new and previous sizes. -/
def __watchdog_reallocate (s : State) (ptr : Nat) (size : Nat)
    (file : String) (line : Nat) (raw_ok : Bool) (addr : Nat) :
    Option Nat × State :=
  let info := s.info_list.getD ptr default
  let old_size := lastTraceSize info
  if raw_ok = false then
    (none, s)
  else
    let trace : trace_t :=
      { file := file, line := line, size := size
        func := call_t.CALL_REALLOC }
    let info2 : info_t :=
      { info with
          address := addr
          allocated := true
          trace_list := info.trace_list ++ [trace] }
    (some ptr,
      { s with
          info_list := s.info_list.set ptr info2
          bytes_allocated := (s.bytes_allocated + size) % W
          bytes_freed := (s.bytes_freed + old_size) % W })

/-- Model of `__watchdog_free` (Watchdog.c lines 368-387).  `ptr` is the
registry index recovered from the chunk header.  It reads the size being
freed from the last trace, appends a FREE trace of size 0, clears the
allocated flag, releases the raw chunk, bumps `__frees_counter` and
`__bytes_freed`, and returns the number of bytes freed. -/
def __watchdog_free (s : State) (ptr : Nat) (file : String) (line : Nat) :
    Nat × State :=
  let info := s.info_list.getD ptr default
  let bytes_freed := lastTraceSize info
  let trace : trace_t :=
    { file := file, line := line, size := 0, func := call_t.CALL_FREE }
  let info2 : info_t :=
    { info with
        allocated := false
        trace_list := info.trace_list ++ [trace] }
  (bytes_freed,
    { s with
        info_list := s.info_list.set ptr info2
        frees_counter := (s.frees_counter + 1) % W
        bytes_freed := (s.bytes_freed + bytes_freed) % W })

/-- Model of `_watchdog_malloc` (Watchdog.c lines 92-97): delegates to
`__watchdog_allocate` with `clear = false`.  Initialization and the
verbose `__watchdog_log_call` are I/O and have no state effect. -/
def _watchdog_malloc (s : State) (size : Nat) (file : String) (line : Nat)
    (raw_ok : Bool) (addr : Nat) : Option Nat × State :=
  __watchdog_allocate s size false file line raw_ok addr

/-- Model of `_watchdog_calloc` (Watchdog.c lines 99-105): computes
`actual_size = num * size` in size_t arithmetic (wrapping modulo `W`,
no overflow check) and delegates to `__watchdog_allocate` with
`clear = true`. -/
def _watchdog_calloc (s : State) (num : Nat) (size : Nat) (file : String)
    (line : Nat) (raw_ok : Bool) (addr : Nat) : Option Nat × State :=
  __watchdog_allocate s ((num * size) % W) true file line raw_ok addr

/-- Model of `_watchdog_free` (Watchdog.c lines 114-118).  The argument
is `none` for a NULL pointer and `some i` for a pointer previously
returned by the instrumented allocator (registry index `i`).  The C code
performs no NULL check and no validation: it unconditionally computes
`chunk = (chunk_t *) ptr - 1` and dereferences `chunk->info`, which for a
NULL or foreign pointer reads from an invalid address — undefined
behavior, modelled as `none`; for a valid tracked pointer it behaves as
`__watchdog_free`. -/
def _watchdog_free (s : State) (ptr : Option Nat) (file : String)
    (line : Nat) : Option State :=
  match ptr with
  | none => none
  | some i =>
      if i < s.info_list.length then
        some (__watchdog_free s i file line).2
      else
        none

/-- The three exit-time hooks of Watchdog.c. -/
inductive ExitHook where
  | terminate
  | report
  | collect
deriving DecidableEq, Repr

/-- The `atexit` registrations performed by `__watchdog_initialize`
(Watchdog.c lines 148-150), in program order: `atexit(__watchdog_terminate)`
first, then `atexit(__watchdog_report)`, then `atexit(__watchdog_collect)`. -/
def registered_atexit_hooks : List ExitHook :=
  [ExitHook.terminate, ExitHook.report, ExitHook.collect]

/-- The C `atexit` mechanism invokes registered functions in reverse
order of their registration. -/
def atexit_execution_order (registered : List ExitHook) : List ExitHook :=
  registered.reverse

/-- Call-site file name used by the garbage collector when it frees a
still-allocated chunk (Watchdog.c line 214). -/
def gc_file : String := "<garbage collector>"

/-- One iteration of the garbage collector loop of `__watchdog_collect`
(Watchdog.c lines 205-217) at registry index `i`: read the last trace,
and if the record is still marked allocated, free it through
`__watchdog_free` and add the size read before the free to
`__bytes_collected`. -/
def __watchdog_collect_step (s : State) (i : Nat) : State :=
  let info := s.info_list.getD i default
  let current_trace := info.trace_list.getLastD default
  if info.allocated then
    let s2 := (__watchdog_free s i gc_file 0).2
    { s2 with bytes_collected := (s2.bytes_collected + current_trace.size) % W }
  else
    s

/-- Model of `__watchdog_collect` (Watchdog.c lines 199-223): when
garbage collection is compiled in (`WATCHDOG_GC != 0`), iterate the
registry front to back, collecting every record still marked allocated;
otherwise do nothing.  Freeing never removes a record from the registry,
so iterating the initial index range visits every record exactly once. -/
def __watchdog_collect (gc_enabled : Bool) (s : State) : State :=
  if gc_enabled then
    (List.range s.info_list.length).foldl __watchdog_collect_step s
  else
    s

/-- The transformation `__watchdog_collect` applies to one registry
record: a record still marked allocated is freed through the internal
free path (FREE trace from the garbage collector appended, allocated
flag cleared); a record already freed is left untouched. -/
def collectMark (info : info_t) : info_t :=
  if info.allocated then
    { info with
        allocated := false
        trace_list := info.trace_list
          ++ [{ file := gc_file, line := 0, size := 0, func := call_t.CALL_FREE }] }
  else
    info

/-- One user-level tracked call, for reasoning about sequences of calls:
an allocate (`malloc` / `calloc`), a resize, or a release.  `raw_ok` and
`addr` are the raw-allocator oracle of the corresponding operation. -/
inductive WdOp where
  | allocOp (size : Nat) (clear : Bool) (file : String) (line : Nat)
      (raw_ok : Bool) (addr : Nat)
  | reallocOp (ptr : Nat) (size : Nat) (file : String) (line : Nat)
      (raw_ok : Bool) (addr : Nat)
  | freeOp (ptr : Nat) (file : String) (line : Nat)
deriving DecidableEq, Repr

/-- State effect of one tracked call. -/
def applyOp (s : State) : WdOp → State
  | WdOp.allocOp size clear file line raw_ok addr =>
      (__watchdog_allocate s size clear file line raw_ok addr).2
  | WdOp.reallocOp ptr size file line raw_ok addr =>
      (__watchdog_reallocate s ptr size file line raw_ok addr).2
  | WdOp.freeOp ptr file line =>
      (__watchdog_free s ptr file line).2

/-- State after a sequence of tracked calls. -/
def runOps (s : State) : List WdOp → State
  | [] => s
  | op :: ops => runOps (applyOp s op) ops

/-- A tracked call is valid in a state when resize and release target a
pointer previously returned by the instrumented allocator (a registry
index) whose chunk is still allocated — the usage contract of the
library (no double free, no foreign pointer). -/
def validOp (s : State) : WdOp → Bool
  | WdOp.allocOp _ _ _ _ _ _ => true
  | WdOp.reallocOp ptr _ _ _ _ _ =>
      decide (ptr < s.info_list.length)
        && (s.info_list.getD ptr default).allocated
  | WdOp.freeOp ptr _ _ =>
      decide (ptr < s.info_list.length)
        && (s.info_list.getD ptr default).allocated

/-- Validity of a whole sequence of tracked calls, each in the state the
previous ones produced. -/
def validOps (s : State) : List WdOp → Bool
  | [] => true
  | op :: ops => validOp s op && validOps (applyOp s op) ops

/-- Sum of the sizes requested by the successful allocate and resize
calls of a sequence: the total the C code adds to `__bytes_allocated`. -/
def allocBytes (ops : List WdOp) : Nat :=
  (ops.map fun op =>
    match op with
    | WdOp.allocOp size _ _ _ raw_ok _ => if raw_ok then size else 0
    | WdOp.reallocOp _ size _ _ raw_ok _ => if raw_ok then size else 0
    | WdOp.freeOp _ _ _ => 0).sum

/-- Ghost description of the counters of a state: `a` and `f` are the
exact (unwrapped) totals of bytes allocated and freed so far; the stored
size_t counters are their values modulo `W`, and the exact totals differ
by the bytes of the currently live chunks. -/
def CounterInv (s : State) (a f : Nat) : Prop :=
  s.bytes_allocated = a % W ∧ s.bytes_freed = f % W ∧ a = f + liveBytes s

/-- Example call-site file name used in concrete evaluations. -/
def fileA : String := "fileA.c"

/-- Example state: one tracked allocation of 100 bytes at address 4096,
made from `fileA` line 10. -/
def exampleAllocState : State :=
  (_watchdog_malloc initial 100 fileA 10 true 4096).2

/-- Example state for the collector: a 50-byte chunk still allocated and
a 30-byte chunk already freed. -/
def exampleCollectState : State :=
  runOps initial
    [WdOp.allocOp 50 false fileA 10 true 4096,
     WdOp.allocOp 30 true fileA 11 true 8192,
     WdOp.freeOp 1 fileA 12]

/-!
Helper lemmas.
-/

theorem add_mod_left_W (x y : Nat) : (x % W + y) % W = (x + y) % W := by
  unfold W
  omega

theorem getLastD_append_single {α : Type} (l : List α) (x d : α) :
    (l ++ [x]).getLastD d = x := by
  induction l with
  | nil => rfl
  | cons y ys ih =>
    rw [List.cons_append]
    cases ys with
    | nil => rfl
    | cons z zs => simpa [List.getLastD] using ih

theorem sum_map_set {α : Type} (g : α → Nat) (l : List α) (i : Nat) (x d : α)
    (h : i < l.length) :
    ((l.set i x).map g).sum + g (l.getD i d) = (l.map g).sum + g x := by
  induction l generalizing i with
  | nil => simp at h
  | cons y ys ih =>
    cases i with
    | zero => simp [List.getD]; omega
    | succ n =>
      have h2 : n < ys.length := by simpa using h
      have h3 := ih n h2
      simp only [List.set, List.map, List.sum_cons, List.getD_cons_succ]
      omega

theorem counterInv_alloc_raw_ok (s : State) (a f size : Nat) (clear : Bool)
    (file : String) (line addr : Nat) (hInv : CounterInv s a f) :
    CounterInv (__watchdog_allocate s size clear file line true addr).2
      (a + size) f := by
  obtain ⟨h1, h2, h3⟩ := hInv
  refine ⟨?_, ?_, ?_⟩
  · show (s.bytes_allocated + size) % W = (a + size) % W
    rw [h1, add_mod_left_W]
  · exact h2
  · show a + size
      = f + liveBytes (__watchdog_allocate s size clear file line true addr).2
    have hl : liveBytes (__watchdog_allocate s size clear file line true addr).2
        = liveBytes s + size := by
      simp [liveBytes, __watchdog_allocate, liveSize, lastTraceSize]
    omega

theorem counterInv_realloc_raw_ok (s : State) (a f ptr size : Nat)
    (file : String) (line addr : Nat) (hInv : CounterInv s a f)
    (hptr : ptr < s.info_list.length)
    (hallocd : (s.info_list.getD ptr default).allocated = true) :
    CounterInv (__watchdog_reallocate s ptr size file line true addr).2
      (a + size) (f + lastTraceSize (s.info_list.getD ptr default)) := by
  obtain ⟨h1, h2, h3⟩ := hInv
  refine ⟨?_, ?_, ?_⟩
  · show (s.bytes_allocated + size) % W = (a + size) % W
    rw [h1, add_mod_left_W]
  · show (s.bytes_freed + lastTraceSize (s.info_list.getD ptr default)) % W
      = (f + lastTraceSize (s.info_list.getD ptr default)) % W
    rw [h2, add_mod_left_W]
  · show a + size
      = (f + lastTraceSize (s.info_list.getD ptr default))
        + liveBytes (__watchdog_reallocate s ptr size file line true addr).2
    have hsum := sum_map_set liveSize s.info_list ptr
      { s.info_list.getD ptr default with
          address := addr
          allocated := true
          trace_list := (s.info_list.getD ptr default).trace_list
            ++ [{ file := file, line := line, size := size
                  func := call_t.CALL_REALLOC }] }
      default hptr
    have hold : liveSize (s.info_list.getD ptr default)
        = lastTraceSize (s.info_list.getD ptr default) := by
      unfold liveSize
      rw [hallocd]
      simp
    have hnew : liveSize
        { s.info_list.getD ptr default with
            address := addr
            allocated := true
            trace_list := (s.info_list.getD ptr default).trace_list
              ++ [{ file := file, line := line, size := size
                    func := call_t.CALL_REALLOC }] } = size := by
      simp [liveSize, lastTraceSize, getLastD_append_single]
    have hlb : liveBytes (__watchdog_reallocate s ptr size file line true addr).2
        = ((s.info_list.set ptr
            { s.info_list.getD ptr default with
                address := addr
                allocated := true
                trace_list := (s.info_list.getD ptr default).trace_list
                  ++ [{ file := file, line := line, size := size
                        func := call_t.CALL_REALLOC }] }).map liveSize).sum := rfl
    rw [hlb]
    rw [hold] at hsum
    rw [hnew] at hsum
    have hlb2 : liveBytes s = (s.info_list.map liveSize).sum := rfl
    omega

theorem counterInv_free_step (s : State) (a f ptr : Nat) (file : String)
    (line : Nat) (hInv : CounterInv s a f)
    (hptr : ptr < s.info_list.length)
    (hallocd : (s.info_list.getD ptr default).allocated = true) :
    CounterInv (__watchdog_free s ptr file line).2
      a (f + lastTraceSize (s.info_list.getD ptr default)) := by
  obtain ⟨h1, h2, h3⟩ := hInv
  refine ⟨?_, ?_, ?_⟩
  · exact h1
  · show (s.bytes_freed + lastTraceSize (s.info_list.getD ptr default)) % W
      = (f + lastTraceSize (s.info_list.getD ptr default)) % W
    rw [h2, add_mod_left_W]
  · show a
      = (f + lastTraceSize (s.info_list.getD ptr default))
        + liveBytes (__watchdog_free s ptr file line).2
    have hsum := sum_map_set liveSize s.info_list ptr
      { s.info_list.getD ptr default with
          allocated := false
          trace_list := (s.info_list.getD ptr default).trace_list
            ++ [{ file := file, line := line, size := 0
                  func := call_t.CALL_FREE }] }
      default hptr
    have hold : liveSize (s.info_list.getD ptr default)
        = lastTraceSize (s.info_list.getD ptr default) := by
      unfold liveSize
      rw [hallocd]
      simp
    have hnew : liveSize
        { s.info_list.getD ptr default with
            allocated := false
            trace_list := (s.info_list.getD ptr default).trace_list
              ++ [{ file := file, line := line, size := 0
                    func := call_t.CALL_FREE }] } = 0 := by
      simp [liveSize]
    have hlb : liveBytes (__watchdog_free s ptr file line).2
        = ((s.info_list.set ptr
            { s.info_list.getD ptr default with
                allocated := false
                trace_list := (s.info_list.getD ptr default).trace_list
                  ++ [{ file := file, line := line, size := 0
                        func := call_t.CALL_FREE }] }).map liveSize).sum := rfl
    rw [hlb]
    rw [hold] at hsum
    rw [hnew] at hsum
    have hlb2 : liveBytes s = (s.info_list.map liveSize).sum := rfl
    omega

theorem runOps_counterInv (ops : List WdOp) :
    ∀ (s : State) (a f : Nat), CounterInv s a f → validOps s ops = true →
      ∃ f2, CounterInv (runOps s ops) (a + allocBytes ops) f2 := by
  induction ops with
  | nil =>
    intro s a f hInv _
    refine ⟨f, ?_⟩
    simpa [runOps, allocBytes] using hInv
  | cons op ops ih =>
    intro s a f hInv hv
    simp only [validOps, Bool.and_eq_true] at hv
    obtain ⟨hv1, hv2⟩ := hv
    cases op with
    | allocOp size clear file line raw_ok addr =>
      cases raw_ok with
      | false =>
        have hab : allocBytes (WdOp.allocOp size clear file line false addr :: ops)
            = allocBytes ops := by
          simp [allocBytes]
        rw [runOps, hab]
        exact ih s a f hInv hv2
      | true =>
        have hab : allocBytes (WdOp.allocOp size clear file line true addr :: ops)
            = size + allocBytes ops := by
          simp [allocBytes]
        rw [runOps, hab, ← Nat.add_assoc]
        exact ih _ (a + size) f
          (counterInv_alloc_raw_ok s a f size clear file line addr hInv) hv2
    | reallocOp ptr size file line raw_ok addr =>
      simp only [validOp, Bool.and_eq_true, decide_eq_true_eq] at hv1
      obtain ⟨hptr, hallocd⟩ := hv1
      cases raw_ok with
      | false =>
        have hab : allocBytes (WdOp.reallocOp ptr size file line false addr :: ops)
            = allocBytes ops := by
          simp [allocBytes]
        rw [runOps, hab]
        exact ih s a f hInv hv2
      | true =>
        have hab : allocBytes (WdOp.reallocOp ptr size file line true addr :: ops)
            = size + allocBytes ops := by
          simp [allocBytes]
        rw [runOps, hab, ← Nat.add_assoc]
        exact ih _ (a + size) _
          (counterInv_realloc_raw_ok s a f ptr size file line addr hInv hptr hallocd)
          hv2
    | freeOp ptr file line =>
      simp only [validOp, Bool.and_eq_true, decide_eq_true_eq] at hv1
      obtain ⟨hptr, hallocd⟩ := hv1
      have hab : allocBytes (WdOp.freeOp ptr file line :: ops) = allocBytes ops := by
        simp [allocBytes]
      rw [runOps, hab]
      exact ih _ a _ (counterInv_free_step s a f ptr file line hInv hptr hallocd) hv2

theorem getD_set_self {α : Type} (l : List α) (i : Nat) (x d : α)
    (h : i < l.length) :
    (l.set i x).getD i d = x := by
  induction l generalizing i with
  | nil => simp at h
  | cons y ys ih =>
    cases i with
    | zero => rfl
    | succ n => exact ih n (by simpa using h)

theorem getD_set_ne {α : Type} (l : List α) (i j : Nat) (x d : α)
    (h : ¬ j = i) :
    (l.set i x).getD j d = l.getD j d := by
  induction l generalizing i j with
  | nil => rfl
  | cons y ys ih =>
    cases i with
    | zero =>
      cases j with
      | zero => exact absurd rfl h
      | succ m => rfl
    | succ n =>
      cases j with
      | zero => rfl
      | succ m => exact ih n m (fun hh => h (by rw [hh]))

theorem getD_map_lt {α β : Type} (g : α → β) (l : List α) (i : Nat)
    (d1 : α) (d2 : β) (h : i < l.length) :
    (l.map g).getD i d2 = g (l.getD i d1) := by
  induction l generalizing i with
  | nil => simp at h
  | cons y ys ih =>
    cases i with
    | zero => rfl
    | succ n => exact ih n (by simpa using h)

theorem map_getD_range {α : Type} (g : α → Nat) (d : α) (l : List α) :
    ((List.range l.length).map fun i => g (l.getD i d)) = l.map g := by
  induction l with
  | nil => rfl
  | cons y ys ih =>
    rw [List.length_cons, List.range_succ_eq_map]
    rw [List.map_cons, List.map_map]
    have hc : ((fun i => g ((y :: ys).getD i d)) ∘ Nat.succ)
        = fun i => g (ys.getD i d) := rfl
    rw [hc, ih]
    rfl

theorem list_ext_getD {α : Type} (d : α) :
    ∀ (l1 l2 : List α), l1.length = l2.length →
      (∀ i, i < l1.length → l1.getD i d = l2.getD i d) → l1 = l2 := by
  intro l1
  induction l1 with
  | nil =>
    intro l2 hlen _
    cases l2 with
    | nil => rfl
    | cons z zs => simp at hlen
  | cons y ys ih =>
    intro l2 hlen hget
    cases l2 with
    | nil => simp at hlen
    | cons z zs =>
      have h0 : y = z := hget 0 (by simp)
      have hr : ys = zs :=
        ih zs (by simpa using hlen) (fun i hi => hget (i + 1) (by simpa using hi))
      rw [h0, hr]

theorem W_pos : 0 < W := by
  unfold W
  omega

theorem collectStep_allocated (s : State) (i : Nat)
    (halloc : (s.info_list.getD i default).allocated = true) :
    __watchdog_collect_step s i
      = { s with
            info_list :=
              s.info_list.set i (collectMark (s.info_list.getD i default))
            frees_counter := (s.frees_counter + 1) % W
            bytes_freed := (s.bytes_freed
              + lastTraceSize (s.info_list.getD i default)) % W
            bytes_collected := (s.bytes_collected
              + lastTraceSize (s.info_list.getD i default)) % W } := by
  unfold __watchdog_collect_step __watchdog_free collectMark lastTraceSize
  simp only [halloc]
  simp

theorem collectStep_not_allocated (s : State) (i : Nat)
    (halloc : (s.info_list.getD i default).allocated = false) :
    __watchdog_collect_step s i = s := by
  unfold __watchdog_collect_step
  simp only [halloc]
  simp

theorem collectFold_spec :
    ∀ (l : List Nat) (s : State),
      (∀ i, i ∈ l → i < s.info_list.length) → l.Nodup →
      s.bytes_collected < W → s.bytes_freed < W → s.frees_counter < W →
      (l.foldl __watchdog_collect_step s).info_list.length
          = s.info_list.length
      ∧ (l.foldl __watchdog_collect_step s).bytes_allocated
          = s.bytes_allocated
      ∧ (l.foldl __watchdog_collect_step s).allocations_counter
          = s.allocations_counter
      ∧ (l.foldl __watchdog_collect_step s).bytes_collected
          = (s.bytes_collected
              + (l.map fun i => liveSize (s.info_list.getD i default)).sum) % W
      ∧ (l.foldl __watchdog_collect_step s).bytes_freed
          = (s.bytes_freed
              + (l.map fun i => liveSize (s.info_list.getD i default)).sum) % W
      ∧ (l.foldl __watchdog_collect_step s).frees_counter
          = (s.frees_counter
              + (l.map fun i =>
                  if (s.info_list.getD i default).allocated then 1 else 0).sum) % W
      ∧ (∀ i, i ∈ l →
          (l.foldl __watchdog_collect_step s).info_list.getD i default
            = collectMark (s.info_list.getD i default))
      ∧ (∀ j, ¬ j ∈ l →
          (l.foldl __watchdog_collect_step s).info_list.getD j default
            = s.info_list.getD j default) := by
  intro l
  induction l with
  | nil =>
    intro s _ _ hbc hbf hfc
    refine ⟨rfl, rfl, rfl, ?_, ?_, ?_, ?_, ?_⟩
    · simp [Nat.mod_eq_of_lt hbc]
    · simp [Nat.mod_eq_of_lt hbf]
    · simp [Nat.mod_eq_of_lt hfc]
    · intro i hi
      simp at hi
    · intro j _
      rfl
  | cons i rest ih =>
    intro s hmem hnd hbc hbf hfc
    rw [List.nodup_cons] at hnd
    obtain ⟨hirest, hndrest⟩ := hnd
    have hilen : i < s.info_list.length := hmem i (List.mem_cons_self i rest)
    rw [List.foldl_cons]
    cases halloc : (s.info_list.getD i default).allocated with
    | false =>
      rw [collectStep_not_allocated s i halloc]
      have hres := ih s (fun j hj => hmem j (List.mem_cons_of_mem i hj))
        hndrest hbc hbf hfc
      obtain ⟨e1, e2, e3, e4, e5, e6, e7, e8⟩ := hres
      refine ⟨e1, e2, e3, ?_, ?_, ?_, ?_, ?_⟩
      · rw [e4]
        have : liveSize (s.info_list.getD i default) = 0 := by
          unfold liveSize
          rw [halloc]
          simp
        rw [List.map_cons, List.sum_cons, this, Nat.zero_add]
      · rw [e5]
        have : liveSize (s.info_list.getD i default) = 0 := by
          unfold liveSize
          rw [halloc]
          simp
        rw [List.map_cons, List.sum_cons, this, Nat.zero_add]
      · rw [e6]
        rw [List.map_cons, List.sum_cons, halloc]
        simp
      · intro j hj
        rcases List.mem_cons.mp hj with hj1 | hj2
        · subst hj1
          rw [e8 j hirest]
          unfold collectMark
          rw [halloc]
          simp
        · exact e7 j hj2
      · intro j hj
        rw [List.mem_cons] at hj
        push_neg at hj
        exact e8 j hj.2
    | true =>
      rw [collectStep_allocated s i halloc]
      have hlen2 : (s.info_list.set i
          (collectMark (s.info_list.getD i default))).length
          = s.info_list.length := by
        simp
      have hres := ih
        { s with
            info_list :=
              s.info_list.set i (collectMark (s.info_list.getD i default))
            frees_counter := (s.frees_counter + 1) % W
            bytes_freed := (s.bytes_freed
              + lastTraceSize (s.info_list.getD i default)) % W
            bytes_collected := (s.bytes_collected
              + lastTraceSize (s.info_list.getD i default)) % W }
        (fun j hj => by
          simpa [hlen2] using hmem j (List.mem_cons_of_mem i hj))
        hndrest (Nat.mod_lt _ W_pos) (Nat.mod_lt _ W_pos) (Nat.mod_lt _ W_pos)
      obtain ⟨e1, e2, e3, e4, e5, e6, e7, e8⟩ := hres
      have hgd : ∀ j, ¬ j = i →
          (s.info_list.set i
            (collectMark (s.info_list.getD i default))).getD j default
          = s.info_list.getD j default := by
        intro j hji
        exact getD_set_ne s.info_list i j _ default hji
      have hsum1 :
          (rest.map fun j => liveSize
            ((s.info_list.set i
              (collectMark (s.info_list.getD i default))).getD j default)).sum
          = (rest.map fun j => liveSize (s.info_list.getD j default)).sum := by
        have : (rest.map fun j => liveSize
            ((s.info_list.set i
              (collectMark (s.info_list.getD i default))).getD j default))
            = rest.map fun j => liveSize (s.info_list.getD j default) := by
          apply List.map_congr_left
          intro j hj
          rw [hgd j (fun hji => hirest (hji ▸ hj))]
        rw [this]
      have hsum2 :
          (rest.map fun j =>
            if ((s.info_list.set i
              (collectMark (s.info_list.getD i default))).getD j
                default).allocated then 1 else 0).sum
          = (rest.map fun j =>
              if (s.info_list.getD j default).allocated then 1 else 0).sum := by
        have : (rest.map fun j =>
            if ((s.info_list.set i
              (collectMark (s.info_list.getD i default))).getD j
                default).allocated then 1 else 0)
            = rest.map fun j =>
                if (s.info_list.getD j default).allocated then 1 else 0 := by
          apply List.map_congr_left
          intro j hj
          rw [hgd j (fun hji => hirest (hji ▸ hj))]
        rw [this]
      have hlive : liveSize (s.info_list.getD i default)
          = lastTraceSize (s.info_list.getD i default) := by
        unfold liveSize
        rw [halloc]
        simp
      refine ⟨?_, e2, e3, ?_, ?_, ?_, ?_, ?_⟩
      · rw [e1]
        simpa using hlen2
      · rw [e4]
        simp only at hsum1 ⊢
        rw [hsum1, List.map_cons, List.sum_cons, hlive, add_mod_left_W]
        rw [Nat.add_assoc]
      · rw [e5]
        simp only at hsum1 ⊢
        rw [hsum1, List.map_cons, List.sum_cons, hlive, add_mod_left_W]
        rw [Nat.add_assoc]
      · rw [e6]
        simp only at hsum2 ⊢
        rw [hsum2, List.map_cons, List.sum_cons, halloc, add_mod_left_W]
        simp [Nat.add_assoc, Nat.add_comm 1]
      · intro j hj
        rcases List.mem_cons.mp hj with hj1 | hj2
        · subst hj1
          rw [e8 j hirest]
          exact getD_set_self s.info_list j _ default hilen
        · rw [e7 j hj2]
          rw [hgd j (fun hji => hirest (hji ▸ hj2))]
      · intro j hj
        rw [List.mem_cons] at hj
        push_neg at hj
        rw [e8 j hj.2]
        exact hgd j hj.1

theorem collect_spec_full (s : State)
    (hbc : s.bytes_collected < W) (hbf : s.bytes_freed < W)
    (hfc : s.frees_counter < W) :
    __watchdog_collect true s
      = { s with
            info_list := s.info_list.map collectMark
            frees_counter := (s.frees_counter + liveCount s) % W
            bytes_freed := (s.bytes_freed + liveBytes s) % W
            bytes_collected := (s.bytes_collected + liveBytes s) % W } := by
  show (List.range s.info_list.length).foldl __watchdog_collect_step s = _
  have hres := collectFold_spec (List.range s.info_list.length) s
    (fun i hi => List.mem_range.mp hi) (List.nodup_range _) hbc hbf hfc
  obtain ⟨e1, e2, e3, e4, e5, e6, e7, e8⟩ := hres
  have hinfo : ((List.range s.info_list.length).foldl
      __watchdog_collect_step s).info_list = s.info_list.map collectMark := by
    apply list_ext_getD default
    · rw [e1, List.length_map]
    · intro j hj
      rw [e1] at hj
      rw [e7 j (List.mem_range.mpr hj)]
      rw [getD_map_lt collectMark s.info_list j default default hj]
  have hsum : ((List.range s.info_list.length).map
      fun i => liveSize (s.info_list.getD i default)).sum
      = liveBytes s := by
    rw [map_getD_range liveSize default s.info_list]
    rfl
  have hcnt : ((List.range s.info_list.length).map
      fun i => if (s.info_list.getD i default).allocated then 1 else 0).sum
      = liveCount s := by
    have h := congrArg List.sum
      (map_getD_range (fun info => if info.allocated then 1 else 0)
        default s.info_list)
    simpa [liveCount] using h
  have hT : (List.range s.info_list.length).foldl __watchdog_collect_step s
      = { info_list := ((List.range s.info_list.length).foldl
            __watchdog_collect_step s).info_list
          allocations_counter := ((List.range s.info_list.length).foldl
            __watchdog_collect_step s).allocations_counter
          frees_counter := ((List.range s.info_list.length).foldl
            __watchdog_collect_step s).frees_counter
          bytes_allocated := ((List.range s.info_list.length).foldl
            __watchdog_collect_step s).bytes_allocated
          bytes_freed := ((List.range s.info_list.length).foldl
            __watchdog_collect_step s).bytes_freed
          bytes_collected := ((List.range s.info_list.length).foldl
            __watchdog_collect_step s).bytes_collected } := rfl
  rw [hT, hinfo, e2, e3, e4, e5, e6, hsum, hcnt]

/-!
Claim theorems.
-/

/-- C1 counterexample: the claim's execution order is wrong.  The hooks
are registered terminate, report, collect (Watchdog.c lines 148-150), and
`atexit` runs hooks in reverse registration order, so they do NOT execute
in the order report, collect, terminate. -/
theorem exit_hooks_claimed_order_false :
    ¬ atexit_execution_order registered_atexit_hooks
        = [ExitHook.report, ExitHook.collect, ExitHook.terminate] := by
  decide

/-- C1 (amended): at initialization the three exit-time hooks are
registered in the order terminate, report, collect, and because the hook
mechanism invokes them in reverse registration order they execute at
process exit in the order collect, then report, then terminate. -/
theorem exit_hooks_registration_and_execution_order :
    registered_atexit_hooks
        = [ExitHook.terminate, ExitHook.report, ExitHook.collect]
    ∧ atexit_execution_order registered_atexit_hooks
        = [ExitHook.collect, ExitHook.report, ExitHook.terminate] := by
  decide

/-- C3: releasing a NULL pointer is not handled by `_watchdog_free`: the
code performs no NULL check, computes the chunk header at NULL minus the
header width and dereferences it, which is undefined behavior (modelled
as `none`), for every state and call site. -/
theorem release_null_is_undefined :
    ∀ (s : State) (file : String) (line : Nat),
      _watchdog_free s none file line = none := by
  intro s file line
  rfl

/-- C5: if the raw `realloc` inside `__watchdog_reallocate` fails, the
call returns NULL and the whole tracking state — registry, every info
record with its address, allocated flag and trace log, and all counters —
is exactly the state before the call. -/
theorem reallocate_failure_leaves_state_unchanged :
    ∀ (s : State) (ptr size : Nat) (file : String) (line addr : Nat),
      __watchdog_reallocate s ptr size file line false addr = (none, s) := by
  intro s ptr size file line addr
  rfl

/-- C7: if the raw allocation inside `_watchdog_malloc` or
`_watchdog_calloc` fails, the call returns NULL and creates no info
record, appends nothing to the registry, and leaves `__bytes_allocated`,
`__allocations_counter` and the rest of the state unchanged. -/
theorem allocate_failure_leaves_state_unchanged :
    ∀ (s : State) (num size : Nat) (file : String) (line addr : Nat),
      _watchdog_malloc s size file line false addr = (none, s)
      ∧ _watchdog_calloc s num size file line false addr = (none, s) := by
  intro s num size file line addr
  exact ⟨rfl, rfl⟩

/-- C9: `_watchdog_calloc` requests exactly `num * size` bytes computed
in wrapping size_t arithmetic (modulo `W`, no overflow check), and on
success the recorded trace size and the increment of `__bytes_allocated`
both equal that product. -/
theorem calloc_requests_product_mod_w :
    ∀ (s : State) (num size : Nat) (file : String) (line addr : Nat),
      _watchdog_calloc s num size file line true addr
        = (some s.info_list.length,
           { s with
               info_list := s.info_list
                 ++ [{ trace_list :=
                         [{ file := file, line := line
                            size := (num * size) % W
                            func := call_t.CALL_CALLOC }]
                       address := addr
                       allocated := true }]
               bytes_allocated := (s.bytes_allocated + (num * size) % W) % W
               allocations_counter := (s.allocations_counter + 1) % W }) := by
  intro s num size file line addr
  rfl

/-- C4: a successful resize of a tracked allocation whose recorded size
is `a` to requested size `b` adds exactly `b` to `__bytes_allocated` and
exactly `a` to `__bytes_freed` (in wrapping size_t arithmetic, exact
whenever the counters do not wrap), keeps the allocation represented by
the same single info record at the same registry index (every other
record untouched), and appends one new REALLOC trace entry to its trace
log. -/
theorem reallocate_success_spec (s : State) (ptr a b : Nat) (file : String)
    (line addr : Nat)
    (hptr : ptr < s.info_list.length)
    (halloc : (s.info_list.getD ptr default).allocated = true)
    (ha : lastTraceSize (s.info_list.getD ptr default) = a) :
    (__watchdog_reallocate s ptr b file line true addr
      = (some ptr,
         { s with
             info_list := s.info_list.set ptr
               { s.info_list.getD ptr default with
                   address := addr
                   allocated := true
                   trace_list := (s.info_list.getD ptr default).trace_list
                     ++ [{ file := file, line := line, size := b
                           func := call_t.CALL_REALLOC }] }
             bytes_allocated := (s.bytes_allocated + b) % W
             bytes_freed := (s.bytes_freed + a) % W }))
    ∧ (s.bytes_allocated + b < W →
        (s.bytes_allocated + b) % W = s.bytes_allocated + b)
    ∧ (s.bytes_freed + a < W →
        (s.bytes_freed + a) % W = s.bytes_freed + a) := by
  subst ha
  exact ⟨rfl, fun h => Nat.mod_eq_of_lt h, fun h => Nat.mod_eq_of_lt h⟩

/-- C4 witness: resizing the single 100-byte allocation of
`exampleAllocState` to 250 bytes keeps it as the one registry record,
now with two trace entries, and moves the counters to 350 allocated /
100 freed. -/
theorem reallocate_success_spec_witness :
    (__watchdog_reallocate exampleAllocState 0 250 fileA 20 true 8192
      = (some 0,
         { exampleAllocState with
             info_list := exampleAllocState.info_list.set 0
               { exampleAllocState.info_list.getD 0 default with
                   address := 8192
                   allocated := true
                   trace_list :=
                     (exampleAllocState.info_list.getD 0 default).trace_list
                       ++ [{ file := fileA, line := 20, size := 250
                             func := call_t.CALL_REALLOC }] }
             bytes_allocated := (exampleAllocState.bytes_allocated + 250) % W
             bytes_freed := (exampleAllocState.bytes_freed + 100) % W }))
    ∧ (exampleAllocState.bytes_allocated + 250) % W = 350
    ∧ (exampleAllocState.bytes_freed + 100) % W = 100
    ∧ ((__watchdog_reallocate exampleAllocState 0 250 fileA 20 true
          8192).2.info_list.getD 0 default).trace_list.length = 2 := by
  have h := reallocate_success_spec exampleAllocState 0 100 250 fileA 20 8192
    (by decide) (by decide) (by decide)
  exact ⟨h.1, by decide, by decide, by decide⟩

/-- C6: freeing a tracked chunk whose most recent trace records size `a`
returns `a`, appends one trace entry of kind FREE with size 0, clears
the allocated flag of the chunk's info record (every other record
untouched), increments the free counter by exactly 1 and `__bytes_freed`
by exactly `a` (in wrapping size_t arithmetic, exact whenever the
counters do not wrap). -/
theorem free_spec (s : State) (ptr a : Nat) (file : String) (line : Nat)
    (hptr : ptr < s.info_list.length)
    (halloc : (s.info_list.getD ptr default).allocated = true)
    (ha : lastTraceSize (s.info_list.getD ptr default) = a) :
    (__watchdog_free s ptr file line
      = (a,
         { s with
             info_list := s.info_list.set ptr
               { s.info_list.getD ptr default with
                   allocated := false
                   trace_list := (s.info_list.getD ptr default).trace_list
                     ++ [{ file := file, line := line, size := 0
                           func := call_t.CALL_FREE }] }
             frees_counter := (s.frees_counter + 1) % W
             bytes_freed := (s.bytes_freed + a) % W }))
    ∧ (s.frees_counter + 1 < W →
        (s.frees_counter + 1) % W = s.frees_counter + 1)
    ∧ (s.bytes_freed + a < W →
        (s.bytes_freed + a) % W = s.bytes_freed + a) := by
  subst ha
  exact ⟨rfl, fun h => Nat.mod_eq_of_lt h, fun h => Nat.mod_eq_of_lt h⟩

/-- C6 witness: freeing the single 100-byte allocation of
`exampleAllocState` returns 100, leaves a two-entry trace log ending in
a size-0 FREE trace, and moves the counters to 1 free / 100 bytes
freed. -/
theorem free_spec_witness :
    (__watchdog_free exampleAllocState 0 fileA 30
      = (100,
         { exampleAllocState with
             info_list := exampleAllocState.info_list.set 0
               { exampleAllocState.info_list.getD 0 default with
                   allocated := false
                   trace_list :=
                     (exampleAllocState.info_list.getD 0 default).trace_list
                       ++ [{ file := fileA, line := 30, size := 0
                             func := call_t.CALL_FREE }] }
             frees_counter := (exampleAllocState.frees_counter + 1) % W
             bytes_freed := (exampleAllocState.bytes_freed + 100) % W }))
    ∧ (exampleAllocState.frees_counter + 1) % W = 1
    ∧ (exampleAllocState.bytes_freed + 100) % W = 100 := by
  have h := free_spec exampleAllocState 0 100 fileA 30
    (by decide) (by decide) (by decide)
  exact ⟨h.1, by decide, by decide⟩

/-- C2: after any sequence of valid tracked allocate, resize and free
calls starting from the initialized state, the size_t difference
`__bytes_allocated - __bytes_freed` (wrapping subtraction modulo `W`)
equals the sum of the sizes of the currently allocated (not yet freed)
tracked chunks reduced modulo `W`; and whenever the total of requested
bytes has not overflowed the counters, the plain difference equals that
sum exactly.  This holds at every point of a longer sequence, since
every prefix of a valid sequence is itself a valid sequence. -/
theorem counters_difference_equals_live_bytes (ops : List WdOp)
    (h : validOps initial ops = true) :
    ((runOps initial ops).bytes_allocated + W
        - (runOps initial ops).bytes_freed) % W
      = liveBytes (runOps initial ops) % W
    ∧ (allocBytes ops < W →
        (runOps initial ops).bytes_allocated - (runOps initial ops).bytes_freed
          = liveBytes (runOps initial ops)) := by
  obtain ⟨f2, h1, h2, h3⟩ := runOps_counterInv ops initial 0 0 ⟨rfl, rfl, rfl⟩ h
  rw [Nat.zero_add] at h1 h3
  constructor
  · rw [h1, h2]
    unfold W
    omega
  · intro hlt
    rw [h1, h2]
    unfold W at hlt ⊢
    omega

/-- C2 witness: allocate 100 bytes, zero-allocate 40 bytes, free the
first chunk; afterwards both the wrapping and the exact difference of
the byte counters equal the 40 live bytes. -/
theorem counters_difference_equals_live_bytes_witness :
    validOps initial
        [WdOp.allocOp 100 false fileA 10 true 4096,
         WdOp.allocOp 40 true fileA 11 true 8192,
         WdOp.freeOp 0 fileA 12] = true
    ∧ allocBytes
        [WdOp.allocOp 100 false fileA 10 true 4096,
         WdOp.allocOp 40 true fileA 11 true 8192,
         WdOp.freeOp 0 fileA 12] < W
    ∧ ((runOps initial
          [WdOp.allocOp 100 false fileA 10 true 4096,
           WdOp.allocOp 40 true fileA 11 true 8192,
           WdOp.freeOp 0 fileA 12]).bytes_allocated + W
        - (runOps initial
            [WdOp.allocOp 100 false fileA 10 true 4096,
             WdOp.allocOp 40 true fileA 11 true 8192,
             WdOp.freeOp 0 fileA 12]).bytes_freed) % W
      = liveBytes (runOps initial
          [WdOp.allocOp 100 false fileA 10 true 4096,
           WdOp.allocOp 40 true fileA 11 true 8192,
           WdOp.freeOp 0 fileA 12]) % W
    ∧ (runOps initial
          [WdOp.allocOp 100 false fileA 10 true 4096,
           WdOp.allocOp 40 true fileA 11 true 8192,
           WdOp.freeOp 0 fileA 12]).bytes_allocated
        - (runOps initial
            [WdOp.allocOp 100 false fileA 10 true 4096,
             WdOp.allocOp 40 true fileA 11 true 8192,
             WdOp.freeOp 0 fileA 12]).bytes_freed
      = liveBytes (runOps initial
          [WdOp.allocOp 100 false fileA 10 true 4096,
           WdOp.allocOp 40 true fileA 11 true 8192,
           WdOp.freeOp 0 fileA 12]) := by
  have h := counters_difference_equals_live_bytes
      [WdOp.allocOp 100 false fileA 10 true 4096,
       WdOp.allocOp 40 true fileA 11 true 8192,
       WdOp.freeOp 0 fileA 12] (by decide)
  exact ⟨by decide, by decide, h.1, h.2 (by decide)⟩

/-- C8: when garbage-collection-on-exit is enabled, the collect hook
visits every registry record: every record still marked allocated is
freed through the internal free path (a FREE trace from the garbage
collector is appended and its allocated flag cleared, exactly
`collectMark`), records already freed are left untouched, and
`__bytes_collected` grows by the sum of the sizes recorded in the
still-allocated records' last trace entries before the internal frees
(`liveBytes`) — exactly, whenever the counter does not wrap. -/
theorem collect_frees_live_chunks (s : State)
    (hbc : s.bytes_collected < W) (hbf : s.bytes_freed < W)
    (hfc : s.frees_counter < W) :
    (__watchdog_collect true s).info_list = s.info_list.map collectMark
    ∧ (__watchdog_collect true s).bytes_collected
        = (s.bytes_collected + liveBytes s) % W
    ∧ (s.bytes_collected + liveBytes s < W →
        (__watchdog_collect true s).bytes_collected
          = s.bytes_collected + liveBytes s) := by
  have h := collect_spec_full s hbc hbf hfc
  rw [h]
  exact ⟨rfl, rfl, fun hlt => Nat.mod_eq_of_lt hlt⟩

/-- C8 witness: in a registry with one still-allocated 50-byte chunk and
one already-freed chunk, the collect pass transforms every record by
`collectMark` (the freed one is untouched) and `__bytes_collected`
increases by exactly 50. -/
theorem collect_frees_live_chunks_witness :
    (__watchdog_collect true exampleCollectState).info_list
        = exampleCollectState.info_list.map collectMark
    ∧ (__watchdog_collect true exampleCollectState).bytes_collected = 50
    ∧ liveBytes exampleCollectState = 50
    ∧ collectMark (exampleCollectState.info_list.getD 1 default)
        = exampleCollectState.info_list.getD 1 default := by
  have h := collect_frees_live_chunks exampleCollectState
    (by decide) (by decide) (by decide)
  refine ⟨h.1, ?_, by decide, by decide⟩
  rw [h.2.1]
  decide

/-- C10: exit-time collection of a still-allocated chunk goes through the
same internal free path as a user free, so a collect pass also bumps
`__frees_counter` by one per collected chunk and `__bytes_freed` by the
collected bytes: the collected bytes are counted in both `__bytes_freed`
and `__bytes_collected`. -/
theorem collect_counts_in_freed_and_collected (s : State)
    (hbc : s.bytes_collected < W) (hbf : s.bytes_freed < W)
    (hfc : s.frees_counter < W) :
    (__watchdog_collect true s).frees_counter
        = (s.frees_counter + liveCount s) % W
    ∧ (__watchdog_collect true s).bytes_freed
        = (s.bytes_freed + liveBytes s) % W
    ∧ (__watchdog_collect true s).bytes_collected
        = (s.bytes_collected + liveBytes s) % W := by
  have h := collect_spec_full s hbc hbf hfc
  rw [h]
  exact ⟨rfl, rfl, rfl⟩

/-- C10 witness: collecting the registry with one live 50-byte chunk
(after one earlier user free of a 30-byte chunk) moves the free counter
from 1 to 2 and bytes freed from 30 to 80, while bytes collected becomes
50 — the 50 collected bytes are counted in both counters. -/
theorem collect_counts_in_freed_and_collected_witness :
    (__watchdog_collect true exampleCollectState).frees_counter = 2
    ∧ (__watchdog_collect true exampleCollectState).bytes_freed = 80
    ∧ (__watchdog_collect true exampleCollectState).bytes_collected = 50 := by
  have h := collect_counts_in_freed_and_collected exampleCollectState
    (by decide) (by decide) (by decide)
  refine ⟨?_, ?_, ?_⟩
  · rw [h.1]
    decide
  · rw [h.2.1]
    decide
  · rw [h.2.2]
    decide

end Watchdog
